import Mathlib

/-!
Verification of the Task Execution Engine's inventory installation code
(`installInventory` / `installStaticInventory` in package `tasks`) against
its specification, via a shallow embedding in Lean 4.

The filesystem is modelled as an association list from paths to file data
(contents and permission bits).  `ioutil.WriteFile` is modelled faithfully:
it truncates and replaces the contents of an existing file while keeping
that file's permission bits, and creates a missing file with the given
permission bits; whether a write succeeds is abstracted by an oracle
`w : String → Bool` telling which paths are writable.  Go's `error`
results become an `Option GoError` paired with the resulting filesystem,
so that the filesystem state after a failed call is also visible.
-/

set_option autoImplicit false
set_option linter.dupNamespace false

namespace Semaphore

/-! ### Decimal rendering (strconv.Itoa) -/

/-- The character for a single decimal digit, as `strconv` renders it. -/
def digitChar : Nat → Char
  | 0 => '0' | 1 => '1' | 2 => '2' | 3 => '3' | 4 => '4'
  | 5 => '5' | 6 => '6' | 7 => '7' | 8 => '8' | _ => '9'

/-- Decimal digit characters of a natural number, most significant first;
`fuel` bounds the recursion depth so the definition is structural (and hence
computable by kernel reduction).  Any `fuel > n` yields the full rendering. -/
def natDigitsAux (fuel : Nat) (n : Nat) : List Char :=
  match fuel with
  | 0 => []
  | fuel + 1 =>
    if n < 10 then [digitChar n]
    else natDigitsAux fuel (n / 10) ++ [digitChar (n % 10)]

/-- Decimal digit characters of a natural number, most significant first. -/
def natDigits (n : Nat) : List Char := natDigitsAux (n + 1) n

/-- Embedding of Go's `strconv.Itoa` on `int`: decimal digits, with a
leading minus sign for negative numbers. -/
def Itoa (i : Int) : String :=
  if i < 0 then "-" ++ String.mk (natDigits i.natAbs)
  else String.mk (natDigits i.toNat)

/-! ### Filesystem model -/

/-- Contents and permission bits of one file on disk. -/
structure FileData where
  contents : String
  mode : Nat
deriving DecidableEq, Repr

/-- The filesystem: a finite map from paths to file data. -/
abbrev FS := List (String × FileData)

/-- Look up the file stored at a path. -/
def lookupFS : FS → String → Option FileData
  | [], _ => none
  | (q, d) :: fs, p => if q = p then some d else lookupFS fs p

/-- The pure effect of a successful `ioutil.WriteFile`: an existing file is
truncated and its contents replaced, keeping its permission bits; a missing
file is created with the given permission bits. -/
def writeFileFS : FS → String → String → Nat → FS
  | [], p, c, m => [(p, ⟨c, m⟩)]
  | (q, d) :: fs, p, c, m =>
    if q = p then (q, ⟨c, d.mode⟩) :: fs
    else (q, d) :: writeFileFS fs p c m

/-- Errors surfaced by the modelled filesystem calls. -/
inductive GoError
  | ioFailure (path : String)
deriving DecidableEq, Repr

/-- Embedding of `ioutil.WriteFile`: the oracle `w` tells which paths are
writable; on failure the filesystem is unchanged and an error is returned. -/
def WriteFile (w : String → Bool) (fs : FS) (p c : String) (m : Nat) :
    FS × Option GoError :=
  if w p then (writeFileFS fs p c m, none) else (fs, some (.ioFailure p))

/-! ### Data model (from the source) -/

/-- `util.Config`: only the field the code under scrutiny reads. -/
structure Config where
  TmpPath : String

/-- `db.AccessKey`: the SSH key record; only its secret material matters
for the modelled `installKey`. -/
structure AccessKey where
  Secret : String

/-- `db.Inventory`: the inventory record fields read by `installInventory`.
The Go field `Type` is spelled `Type'` because `Type` is reserved in Lean. -/
structure Inventory where
  Type' : String
  Inventory : String
  SSHKeyID : Option Int
  SSHKey : AccessKey

/-- `db.Task`: only the task id is read here. -/
structure TaskRecord where
  ID : Int

/-- The `task` runtime struct: the fields `installInventory` touches. -/
structure TaskCtx where
  task : TaskRecord
  inventory : Inventory

/-- The per-task path of the SSH key artifact, per the Secret Materializer
contract (a uniquely-named per-task temporary file under the temp dir). -/
def keyPath (cfg : Config) (id : Int) : String :=
  cfg.TmpPath ++ "/access_key_" ++ Itoa id

/-- Modelled from the spec: `installKey` (the Secret Materializer) is not
under src/; per §4.1 it writes the key bytes to a uniquely-named per-task
temporary file with owner-only read/write permission (0600) and fails with
an IO failure if the temp directory is unwritable. -/
def installKey (w : String → Bool) (cfg : Config) (fs : FS) (id : Int)
    (key : AccessKey) : FS × Option GoError :=
  WriteFile w fs (keyPath cfg id) key.Secret 0o600

/-- The path of the static inventory artifact for a task, exactly as built
in `installStaticInventory`: `util.Config.TmpPath + "/inventory_" +
strconv.Itoa(t.task.ID)`. -/
def invPath (cfg : Config) (id : Int) : String :=
  cfg.TmpPath ++ "/inventory_" ++ Itoa id

/-- Embedding of `(*task).installStaticInventory`: writes the inventory
record's literal text to the per-task inventory path with mode `0664`.
(The `t.log` call only appends to the task's output stream and has no
filesystem effect, so it is not modelled here.) -/
def installStaticInventory (w : String → Bool) (cfg : Config) (fs : FS)
    (t : TaskCtx) : FS × Option GoError :=
  WriteFile w fs (invPath cfg t.task.ID) t.inventory.Inventory 0o664

/-- Embedding of `(*task).installInventory`: if an SSH key is referenced,
install it first and short-circuit on error; then switch on the inventory
type, where only the `"static"` case does anything and every other type
falls through to a `nil` (success) return. -/
def installInventory (w : String → Bool) (cfg : Config) (fs : FS)
    (t : TaskCtx) : FS × Option GoError :=
  match t.inventory.SSHKeyID with
  | some _ =>
    match installKey w cfg fs t.task.ID t.inventory.SSHKey with
    | (fs1, some e) => (fs1, some e)
    | (fs1, none) =>
      if t.inventory.Type' = "static" then installStaticInventory w cfg fs1 t
      else (fs1, none)
  | none =>
    if t.inventory.Type' = "static" then installStaticInventory w cfg fs t
    else (fs, none)

/-! ### Task status machine -/

/-- Modelled from the spec: the Scheduler's task status machine is not under
src/; §4.4 gives the states `Waiting → Running → {Success | Error | Stopped}`. -/
inductive TaskStatus
  | Waiting | Running | Success | Error | Stopped
deriving DecidableEq, Repr

/-- Modelled from the spec: the allowed status transitions of §4.4 — the
head of the queue moves `Waiting → Running`; a run ends in `Success`,
`Error` or `Stopped`; and per the stop contract a `Waiting` task that is
stopped moves directly to `Stopped` without running. -/
inductive StatusStep : TaskStatus → TaskStatus → Prop
  | start : StatusStep .Waiting .Running
  | finishOk : StatusStep .Running .Success
  | finishErr : StatusStep .Running .Error
  | stopRunning : StatusStep .Running .Stopped
  | stopWaiting : StatusStep .Waiting .Stopped

/-- Whether a status is terminal (`Success`, `Error` or `Stopped`). -/
def isTerminal : TaskStatus → Bool
  | .Success => true
  | .Error => true
  | .Stopped => true
  | _ => false

/-- Position of a status along the `Waiting → Running → terminal` chain. -/
def statusRank : TaskStatus → Nat
  | .Waiting => 0
  | .Running => 1
  | _ => 2

/-! ### Lemmas about decimal rendering -/

/-- Numeric value of a most-significant-first list of decimal digit chars. -/
def digitsVal (ds : List Char) : Nat :=
  ds.foldl (fun a c => a * 10 + (c.toNat - 48)) 0

theorem digitChar_toNat {n : Nat} (h : n < 10) : (digitChar n).toNat = 48 + n := by
  interval_cases n <;> rfl

theorem le_digitChar_toNat (k : Nat) : 48 ≤ (digitChar k).toNat := by
  unfold digitChar
  split <;> decide

theorem digitsVal_append (ds : List Char) (c : Char) :
    digitsVal (ds ++ [c]) = digitsVal ds * 10 + (c.toNat - 48) := by
  simp [digitsVal, List.foldl_append]

theorem digitsVal_natDigitsAux (fuel : Nat) :
    ∀ n, n < fuel → digitsVal (natDigitsAux fuel n) = n := by
  induction fuel with
  | zero => intro n hn; omega
  | succ fuel ih =>
    intro n hn
    rw [natDigitsAux]
    by_cases h : n < 10
    · simp [h, digitsVal, digitChar_toNat h]
    · rw [if_neg h, digitsVal_append, ih (n / 10) (by omega),
        digitChar_toNat (Nat.mod_lt n (by omega))]
      omega

theorem digitsVal_natDigits (n : Nat) : digitsVal (natDigits n) = n :=
  digitsVal_natDigitsAux (n + 1) n (Nat.lt_succ_self n)

theorem natDigits_inj {a b : Nat} (h : natDigits a = natDigits b) : a = b := by
  have := congrArg digitsVal h
  rwa [digitsVal_natDigits, digitsVal_natDigits] at this

theorem natDigitsAux_mem_ge (fuel : Nat) :
    ∀ n {c : Char}, c ∈ natDigitsAux fuel n → 48 ≤ c.toNat := by
  induction fuel with
  | zero => intro n c hc; simp [natDigitsAux] at hc
  | succ fuel ih =>
    intro n c hc
    rw [natDigitsAux] at hc
    by_cases h : n < 10
    · rw [if_pos h] at hc
      simp only [List.mem_singleton] at hc
      exact hc ▸ le_digitChar_toNat n
    · rw [if_neg h] at hc
      rcases List.mem_append.1 hc with h1 | h1
      · exact ih (n / 10) h1
      · simp only [List.mem_singleton] at h1
        exact h1 ▸ le_digitChar_toNat (n % 10)

theorem natDigits_mem_ge (n : Nat) {c : Char} (hc : c ∈ natDigits n) :
    48 ≤ c.toNat :=
  natDigitsAux_mem_ge (n + 1) n hc

theorem natDigits_ne_minus_cons (n : Nat) (rest : List Char) :
    natDigits n ≠ '-' :: rest := by
  intro h
  have hm : ('-' : Char) ∈ natDigits n := h ▸ List.mem_cons_self _ _
  exact absurd (natDigits_mem_ge n hm) (by decide)

theorem Itoa_injective {a b : Int} (h : Itoa a = Itoa b) : a = b := by
  unfold Itoa at h
  have hd := congrArg String.data h
  by_cases ha : a < 0 <;> by_cases hb : b < 0 <;>
    simp only [ha, hb, if_pos, if_neg, if_true, if_false, String.data_append] at hd
  · have : natDigits a.natAbs = natDigits b.natAbs := by
      simpa using hd
    have := natDigits_inj this
    omega
  · exact absurd hd.symm (by simpa using natDigits_ne_minus_cons b.toNat _)
  · exact absurd hd (by simpa using natDigits_ne_minus_cons a.toNat _)
  · have := natDigits_inj (show natDigits a.toNat = natDigits b.toNat by simpa using hd)
    omega

theorem invPath_inj (cfg : Config) {a b : Int} (h : invPath cfg a = invPath cfg b) :
    a = b := by
  unfold invPath at h
  have hd := congrArg String.data h
  simp only [String.data_append, List.append_assoc] at hd
  have h2 := List.append_cancel_left (List.append_cancel_left hd)
  exact Itoa_injective (String.ext h2)

/-! ### Lemmas about the filesystem model -/

/-- Contents of the file at a path, if any. -/
def getContents (fs : FS) (p : String) : Option String :=
  (lookupFS fs p).map FileData.contents

theorem lookupFS_writeFileFS_ne (fs : FS) {p q : String} (c : String) (m : Nat)
    (hne : q ≠ p) : lookupFS (writeFileFS fs p c m) q = lookupFS fs q := by
  induction fs with
  | nil =>
    simp only [writeFileFS, lookupFS]
    rw [if_neg (fun h => hne h.symm)]
  | cons hd tl ih =>
    obtain ⟨r, d⟩ := hd
    by_cases hr : r = p
    · subst hr
      simp only [writeFileFS, if_pos rfl, lookupFS]
      rw [if_neg (fun h => hne h.symm), if_neg (fun h => hne h.symm)]
    · simp only [writeFileFS, if_neg hr, lookupFS]
      by_cases hq : r = q
      · rw [if_pos hq, if_pos hq]
      · rw [if_neg hq, if_neg hq, ih]

theorem getContents_writeFileFS_self (fs : FS) (p c : String) (m : Nat) :
    getContents (writeFileFS fs p c m) p = some c := by
  induction fs with
  | nil => simp [writeFileFS, lookupFS, getContents]
  | cons hd tl ih =>
    obtain ⟨r, d⟩ := hd
    by_cases hr : r = p
    · subst hr
      simp [writeFileFS, lookupFS, getContents]
    · simp only [writeFileFS, if_neg hr, getContents, lookupFS]
      exact ih

theorem lookupFS_writeFileFS_fresh (fs : FS) {p : String} (c : String) (m : Nat)
    (hfresh : lookupFS fs p = none) :
    lookupFS (writeFileFS fs p c m) p = some ⟨c, m⟩ := by
  induction fs with
  | nil => simp [writeFileFS, lookupFS]
  | cons hd tl ih =>
    obtain ⟨r, d⟩ := hd
    by_cases hr : r = p
    · subst hr
      simp [lookupFS] at hfresh
    · simp only [lookupFS, if_neg hr] at hfresh
      simp [writeFileFS, lookupFS, hr, ih hfresh]

theorem writeFileFS_idem (fs : FS) (p c : String) (m : Nat) :
    writeFileFS (writeFileFS fs p c m) p c m = writeFileFS fs p c m := by
  induction fs with
  | nil => simp [writeFileFS]
  | cons hd tl ih =>
    obtain ⟨r, d⟩ := hd
    by_cases hr : r = p <;> simp [writeFileFS, hr, ih]

/-! ### Concrete fixtures for counterexamples and witnesses -/

/-- A configuration with the usual temp directory. -/
def cfg0 : Config := ⟨"/tmp/semaphore"⟩

/-- An oracle under which every path is writable. -/
def wAll : String → Bool := fun _ => true

/-- An oracle under which no path is writable. -/
def wNone : String → Bool := fun _ => false

/-- Task 1: a static inventory without an SSH key reference. -/
def tStatic : TaskCtx := ⟨⟨1⟩, ⟨"static", "host1 ansible_user=root", none, ⟨"K"⟩⟩⟩

/-- Task 2: a static inventory that references SSH key 5. -/
def tKeyed : TaskCtx := ⟨⟨2⟩, ⟨"static", "db1", some 5, ⟨"SECRET"⟩⟩⟩

/-- Task 3: a dynamic (script) inventory, kind `"file"`, no key reference. -/
def tDyn : TaskCtx := ⟨⟨3⟩, ⟨"file", "", none, ⟨"K"⟩⟩⟩

/-- Task 7: an inventory whose declared kind is unrecognized. -/
def tBogus : TaskCtx := ⟨⟨7⟩, ⟨"bogus", "x", none, ⟨"K"⟩⟩⟩

/-- A filesystem already holding a dynamic-inventory script with mode 0644
(no execute bits). -/
def scriptFS : FS := [("/tmp/semaphore/inv.sh", ⟨"#!/bin/sh", 0o644⟩)]

example : Itoa 123 = "123" := rfl
example : Itoa (-45) = "-45" := rfl
example : Itoa 0 = "0" := rfl
example : invPath cfg0 1 = "/tmp/semaphore/inventory_1" := rfl
example : keyPath cfg0 2 = "/tmp/semaphore/access_key_2" := rfl
example : installStaticInventory wAll cfg0 [] tStatic
    = ([("/tmp/semaphore/inventory_1", ⟨"host1 ansible_user=root", 0o664⟩)], none) := rfl
example : installInventory wAll cfg0 [] tBogus = ([], none) := rfl

/-! ### Claim theorems -/

/-- C1 counterexample: the static inventory file is created with permission
bits `0664`, which DOES set the group read/write bits and the world read
bit, refuting "no group or other read/write bits set".  On an empty
filesystem the file written for task 1 carries mode `0664`, whose
group-bits octet is `6` and whose other-bits octet is `4`. -/
theorem C1_counterexample :
    lookupFS (installStaticInventory wAll cfg0 [] tStatic).1 (invPath cfg0 1)
      = some ⟨"host1 ansible_user=root", 0o664⟩ ∧
    0o664 / 8 % 8 = 6 ∧ 0o664 % 8 = 4 := by
  exact ⟨rfl, rfl, rfl⟩

/-- C1 amended: the spec-modelled SSH key file is written owner-only
(mode `0600`), but the static inventory file written by
`installStaticInventory` is created with mode `0664` — group read/write
and world read bits set, so it is group- and world-readable. -/
theorem C1_permission_bits (w : String → Bool) (cfg : Config) (fs : FS)
    (t : TaskCtx) (k : AccessKey)
    (hfi : lookupFS fs (invPath cfg t.task.ID) = none)
    (hwi : w (invPath cfg t.task.ID) = true)
    (hfk : lookupFS fs (keyPath cfg t.task.ID) = none)
    (hwk : w (keyPath cfg t.task.ID) = true) :
    lookupFS (installStaticInventory w cfg fs t).1 (invPath cfg t.task.ID)
      = some ⟨t.inventory.Inventory, 0o664⟩ ∧
    lookupFS (installKey w cfg fs t.task.ID k).1 (keyPath cfg t.task.ID)
      = some ⟨k.Secret, 0o600⟩ := by
  constructor
  · simp [installStaticInventory, WriteFile, hwi,
      lookupFS_writeFileFS_fresh fs _ _ hfi]
  · simp [installKey, WriteFile, hwk, lookupFS_writeFileFS_fresh fs _ _ hfk]

theorem C1_witness :
    lookupFS (installStaticInventory wAll cfg0 [] tStatic).1
        (invPath cfg0 tStatic.task.ID)
      = some ⟨tStatic.inventory.Inventory, 0o664⟩ ∧
    lookupFS (installKey wAll cfg0 [] tStatic.task.ID ⟨"SECRET"⟩).1
        (keyPath cfg0 tStatic.task.ID)
      = some ⟨"SECRET", 0o600⟩ :=
  C1_permission_bits wAll cfg0 [] tStatic ⟨"SECRET"⟩ rfl rfl rfl rfl

/-- C2 counterexample: for the unrecognized inventory kind `"bogus"`,
`installInventory` succeeds (returns no error and leaves the filesystem
unchanged) instead of failing with an `InvalidInventory` error — the Go
`switch` has a single `"static"` case and falls through to `return nil`. -/
theorem C2_counterexample :
    installInventory wAll cfg0 [] tBogus = ([], none) := rfl

/-- C2 amended: for every inventory record whose declared kind is not
`"static"`, `installInventory` does NOT fail with an `InvalidInventory`
error; it returns whatever the key installation produced (a success when
no key is referenced), writing no inventory artifact at all. -/
theorem C2_unrecognized_kind_succeeds (w : String → Bool) (cfg : Config)
    (fs : FS) (t : TaskCtx) (h : t.inventory.Type' ≠ "static") :
    installInventory w cfg fs t =
      (match t.inventory.SSHKeyID with
       | none => (fs, none)
       | some _ => installKey w cfg fs t.task.ID t.inventory.SSHKey) := by
  cases hk : t.inventory.SSHKeyID with
  | none => simp [installInventory, hk, h]
  | some k =>
    cases hr : installKey w cfg fs t.task.ID t.inventory.SSHKey with
    | mk fs1 e => cases e <;> simp [installInventory, hk, hr, h]

theorem C2_witness :
    installInventory wAll cfg0 [] tBogus =
      (match tBogus.inventory.SSHKeyID with
       | none => (([] : FS), none)
       | some _ => installKey wAll cfg0 [] tBogus.task.ID tBogus.inventory.SSHKey) :=
  C2_unrecognized_kind_succeeds wAll cfg0 [] tBogus (by decide)

/-- C3: `installStaticInventory` writes the inventory record's literal text
verbatim to the path `TmpPath ++ "/inventory_" ++ Itoa taskID`, and returns
success exactly when the write at that path succeeds; on success the file
at that path holds exactly the stored inventory text. -/
theorem C3_static_inventory_write (w : String → Bool) (cfg : Config)
    (fs : FS) (t : TaskCtx) :
    invPath cfg t.task.ID = cfg.TmpPath ++ "/inventory_" ++ Itoa t.task.ID ∧
    ((installStaticInventory w cfg fs t).2 = none ↔
      w (invPath cfg t.task.ID) = true) ∧
    ((installStaticInventory w cfg fs t).2 = none →
      getContents (installStaticInventory w cfg fs t).1 (invPath cfg t.task.ID)
        = some t.inventory.Inventory) := by
  refine ⟨rfl, ?_, ?_⟩ <;>
    unfold installStaticInventory WriteFile <;>
    by_cases hw : w (invPath cfg t.task.ID) <;>
    simp [hw, getContents_writeFileFS_self]

theorem C3_witness :
    getContents (installStaticInventory wAll cfg0 [] tStatic).1
        (invPath cfg0 tStatic.task.ID)
      = some tStatic.inventory.Inventory :=
  (C3_static_inventory_write wAll cfg0 [] tStatic).2.2 rfl

/-- C4: when the inventory references an SSH key and materializing the key
fails, `installInventory` short-circuits: it returns exactly the key
error, and the filesystem is unchanged — in particular no inventory
artifact appears at the task's inventory path. -/
theorem C4_key_failure_short_circuits (w : String → Bool) (cfg : Config)
    (fs : FS) (t : TaskCtx) (k : Int)
    (hk : t.inventory.SSHKeyID = some k)
    (hfail : w (keyPath cfg t.task.ID) = false) :
    installInventory w cfg fs t
      = (fs, some (.ioFailure (keyPath cfg t.task.ID))) ∧
    lookupFS (installInventory w cfg fs t).1 (invPath cfg t.task.ID)
      = lookupFS fs (invPath cfg t.task.ID) := by
  unfold installInventory installKey WriteFile
  rw [hk]
  simp [hfail]

theorem C4_witness :
    installInventory wNone cfg0 [] tKeyed
      = ([], some (.ioFailure (keyPath cfg0 tKeyed.task.ID))) ∧
    lookupFS (installInventory wNone cfg0 [] tKeyed).1
        (invPath cfg0 tKeyed.task.ID)
      = lookupFS [] (invPath cfg0 tKeyed.task.ID) :=
  C4_key_failure_short_circuits wNone cfg0 [] tKeyed 5 rfl rfl

/-- C5 counterexample: for a dynamic (script) inventory of kind `"file"`,
`installInventory` leaves the filesystem completely unchanged: the existing
script keeps mode `0644`, whose owner/group/other execute bits are all `0`,
so the artifact is NOT marked executable. -/
theorem C5_counterexample :
    installInventory wAll cfg0 scriptFS tDyn = (scriptFS, none) ∧
    0o644 / 64 % 2 = 0 ∧ 0o644 / 8 % 2 = 0 ∧ 0o644 % 2 = 0 := by
  exact ⟨rfl, rfl, rfl, rfl⟩

/-- C5 amended: for every dynamic (script) inventory — any kind other than
`"static"` — the resolver performs no filesystem action at all: no content
is rewritten AND no executable bit is set; with no key referenced the
filesystem is returned exactly unchanged with a success result. -/
theorem C5_dynamic_inventory_noop (w : String → Bool) (cfg : Config)
    (fs : FS) (t : TaskCtx) (hdyn : t.inventory.Type' ≠ "static")
    (hk : t.inventory.SSHKeyID = none) :
    installInventory w cfg fs t = (fs, none) := by
  unfold installInventory
  rw [hk]
  simp [hdyn]

theorem C5_witness :
    installInventory wNone cfg0 scriptFS tDyn = (scriptFS, none) :=
  C5_dynamic_inventory_noop wNone cfg0 scriptFS tDyn (by decide) rfl

/-- C6: the static inventory artifact path is injective in the task id —
two tasks with distinct ids always write distinct temp-file paths. -/
theorem C6_distinct_ids_distinct_paths (cfg : Config) (t1 t2 : TaskCtx)
    (h : t1.task.ID ≠ t2.task.ID) :
    invPath cfg t1.task.ID ≠ invPath cfg t2.task.ID :=
  fun he => h (invPath_inj cfg he)

theorem C6_witness :
    invPath cfg0 tStatic.task.ID ≠ invPath cfg0 tKeyed.task.ID :=
  C6_distinct_ids_distinct_paths cfg0 tStatic tKeyed (by decide)

/-- C7: in the status machine modelled from the spec, every transition
strictly advances along the `Waiting → Running → terminal` chain, a task
in a terminal status (`Success`, `Error`, `Stopped`) never transitions
again (so it can never reach a second, different terminal status), and
`Running` is entered only from `Waiting`. -/
theorem C7_status_machine :
    (∀ s s' : TaskStatus, StatusStep s s' → statusRank s < statusRank s') ∧
    (∀ s s' : TaskStatus, isTerminal s = true →
      Relation.ReflTransGen StatusStep s s' → s' = s) ∧
    (∀ s : TaskStatus, StatusStep s .Running → s = .Waiting) := by
  refine ⟨?_, ?_, ?_⟩
  · intro s s' h
    cases h <;> simp [statusRank]
  · intro s s' hterm hsteps
    induction hsteps with
    | refl => rfl
    | tail hab hbc ih =>
      subst ih
      cases hbc <;> simp [isTerminal] at hterm
  · intro s h
    cases h
    rfl

theorem C7_witness :
    statusRank TaskStatus.Waiting < statusRank TaskStatus.Running ∧
    (TaskStatus.Success : TaskStatus) = TaskStatus.Success ∧
    (TaskStatus.Waiting : TaskStatus) = TaskStatus.Waiting :=
  ⟨C7_status_machine.1 TaskStatus.Waiting TaskStatus.Running StatusStep.start,
   C7_status_machine.2.1 TaskStatus.Success TaskStatus.Success rfl
     Relation.ReflTransGen.refl,
   C7_status_machine.2.2 TaskStatus.Waiting StatusStep.start⟩

/-- C8: when no SSH key is referenced (`SSHKeyID` is `nil`),
`installInventory` performs no key installation: its result is exactly the
inventory action mandated by the inventory's kind, and no path other than
the task's inventory path is touched. -/
theorem C8_no_key_reference_frame (w : String → Bool) (cfg : Config)
    (fs : FS) (t : TaskCtx) (h : t.inventory.SSHKeyID = none) :
    installInventory w cfg fs t =
      (if t.inventory.Type' = "static" then installStaticInventory w cfg fs t
       else (fs, none)) ∧
    (∀ p, p ≠ invPath cfg t.task.ID →
      lookupFS (installInventory w cfg fs t).1 p = lookupFS fs p) := by
  unfold installInventory
  rw [h]
  refine ⟨rfl, ?_⟩
  intro p hp
  by_cases ht : t.inventory.Type' = "static"
  · rw [if_pos ht]
    unfold installStaticInventory WriteFile
    by_cases hw : w (invPath cfg t.task.ID)
    · simp [hw, lookupFS_writeFileFS_ne fs _ _ hp]
    · simp [hw]
  · rw [if_neg ht]

theorem C8_witness :
    installInventory wAll cfg0 [] tStatic =
      (if tStatic.inventory.Type' = "static"
       then installStaticInventory wAll cfg0 [] tStatic
       else ([], none)) ∧
    lookupFS (installInventory wAll cfg0 [] tStatic).1
        (keyPath cfg0 tStatic.task.ID)
      = lookupFS [] (keyPath cfg0 tStatic.task.ID) :=
  ⟨(C8_no_key_reference_frame wAll cfg0 [] tStatic rfl).1,
   (C8_no_key_reference_frame wAll cfg0 [] tStatic rfl).2
     (keyPath cfg0 tStatic.task.ID) (by decide)⟩

/-- C9: `installStaticInventory` is deterministic in the configured temp
directory, the task id, and the inventory text: two invocations agreeing on
those three inputs target the identical path, and on success each leaves
the identical inventory text at that path. -/
theorem C9_deterministic (w1 w2 : String → Bool) (cfg1 cfg2 : Config)
    (fs1 fs2 : FS) (t1 t2 : TaskCtx)
    (hT : cfg1.TmpPath = cfg2.TmpPath) (hid : t1.task.ID = t2.task.ID)
    (hinv : t1.inventory.Inventory = t2.inventory.Inventory) :
    invPath cfg1 t1.task.ID = invPath cfg2 t2.task.ID ∧
    ((installStaticInventory w1 cfg1 fs1 t1).2 = none →
     (installStaticInventory w2 cfg2 fs2 t2).2 = none →
      getContents (installStaticInventory w1 cfg1 fs1 t1).1
          (invPath cfg1 t1.task.ID)
        = getContents (installStaticInventory w2 cfg2 fs2 t2).1
          (invPath cfg2 t2.task.ID)) := by
  have hpath : invPath cfg1 t1.task.ID = invPath cfg2 t2.task.ID := by
    unfold invPath
    rw [hT, hid]
  refine ⟨hpath, fun h1 h2 => ?_⟩
  rw [((C3_static_inventory_write w1 cfg1 fs1 t1).2.2 h1),
    ((C3_static_inventory_write w2 cfg2 fs2 t2).2.2 h2), hinv]

theorem C9_witness :
    invPath cfg0 tStatic.task.ID = invPath cfg0 tStatic.task.ID ∧
    getContents (installStaticInventory wAll cfg0 [] tStatic).1
        (invPath cfg0 tStatic.task.ID)
      = getContents (installStaticInventory wAll cfg0 scriptFS tStatic).1
        (invPath cfg0 tStatic.task.ID) :=
  ⟨(C9_deterministic wAll wAll cfg0 cfg0 [] [] tStatic tStatic rfl rfl rfl).1,
   (C9_deterministic wAll wAll cfg0 cfg0 [] scriptFS tStatic tStatic
     rfl rfl rfl).2 rfl rfl⟩

/-- C10: `installStaticInventory` is idempotent per task: a second
invocation with the same task id and inventory text on the filesystem
produced by a successful first invocation succeeds and leaves that
filesystem exactly unchanged — the write truncates and replaces the file
at the fixed per-task path. -/
theorem C10_idempotent (w : String → Bool) (cfg : Config) (fs fs' : FS)
    (t : TaskCtx) (h : installStaticInventory w cfg fs t = (fs', none)) :
    installStaticInventory w cfg fs' t = (fs', none) := by
  unfold installStaticInventory WriteFile at h ⊢
  by_cases hw : w (invPath cfg t.task.ID)
  · rw [if_pos hw] at h ⊢
    have hfs := congrArg Prod.fst h
    simp only [Prod.fst] at hfs
    rw [← hfs, writeFileFS_idem]
  · rw [if_neg hw] at h
    exact absurd (congrArg Prod.snd h) (by simp)

theorem C10_witness :
    installStaticInventory wAll cfg0
        (installStaticInventory wAll cfg0 [] tStatic).1 tStatic
      = ((installStaticInventory wAll cfg0 [] tStatic).1, none) :=
  C10_idempotent wAll cfg0 [] (installStaticInventory wAll cfg0 [] tStatic).1
    tStatic rfl

end Semaphore
